import Mathlib

/-!
Verification of the hermit-entry boot handoff protocol library.

The development shallowly embeds `src/src/lib.rs`: the `RawBootInfo`
record (with its architecture-conditional fields), the `BootInfo` view,
the `Entry` function type, the entry-version-note constants, and the two
methods `store_current_stack_address` and `load_cpu_online`.  Machine
integers are modelled as `Nat` with explicit `% 2^w` where overflow
matters.  Operations on atomic fields are modelled as state-passing
functions on the record.  The kernel/loader feature modules are not part
of the sources; the operations they provide (`increment_cpu_online`,
note encoding/decoding, `from_raw`) are modelled from the specification,
each marked as such in its doc comment.
-/

namespace HermitEntry

/-- The two target architectures the source distinguishes via `cfg(target_arch)`. -/
inductive Arch where
  | x86_64
  | aarch64
deriving DecidableEq, Fintype

/-- Modulus of `u32`. -/
def u32Mod : Nat := 2 ^ 32

/-- Modulus of `u64`. -/
def u64Mod : Nat := 2 ^ 64

/-- Width in bits of `SerialPortBase`:
`type SerialPortBase = u16` on x86_64, `type SerialPortBase = u32` on aarch64
(src/src/lib.rs lines 39-42). -/
def serialPortBaseBits : Arch → Nat
  | Arch.x86_64 => 16
  | Arch.aarch64 => 32

/-- State of a `RawBootInfo` record (src/src/lib.rs lines 96-189).
Fields present only on one architecture (`ram_start` on aarch64,
`mb_info` on x86_64) are embedded as functions out of the corresponding
architecture equation, so each build has exactly the source's fields.
`tls_align` exists on both architectures (at different layout positions,
see `rawLayout`).  Atomic fields (`current_stack_address : AtomicU64`,
`cpu_online : AtomicU32`) are plain `Nat` here; the atomic operations
are state-passing functions below. -/
structure RawBootInfo (arch : Arch) where
  magic_number : Nat
  version : Nat
  base : Nat
  ram_start : arch = Arch.aarch64 → Nat
  limit : Nat
  image_size : Nat
  tls_start : Nat
  tls_filesz : Nat
  tls_memsz : Nat
  tls_align : Nat
  current_stack_address : Nat
  current_percore_address : Nat
  host_logical_addr : Nat
  boot_gtod : Nat
  mb_info : arch = Arch.x86_64 → Nat
  cmdline : Nat
  cmdsize : Nat
  cpu_freq : Nat
  boot_processor : Nat
  cpu_online : Nat
  possible_cpus : Nat
  current_boot_id : Nat
  uartport : Nat
  single_kernel : Nat
  uhyve : Nat
  hcip : Nat × Nat × Nat × Nat
  hcgateway : Nat × Nat × Nat × Nat
  hcmask : Nat × Nat × Nat × Nat

/-- `pub fn store_current_stack_address(&self, current_stack_address: u64)`
(src/src/lib.rs lines 192-195): a relaxed atomic store into the
`current_stack_address` field.  The `% u64Mod` models the `u64` domain of
the stored value. -/
def RawBootInfo.store_current_stack_address {arch : Arch} (s : RawBootInfo arch)
    (v : Nat) : RawBootInfo arch :=
  { s with current_stack_address := v % u64Mod }

/-- `pub fn load_cpu_online(&self) -> u32` (src/src/lib.rs lines 197-199):
an acquire atomic load of the `cpu_online` field.  Modelled
state-passing: it returns the loaded value together with the (unchanged)
record. -/
def RawBootInfo.load_cpu_online {arch : Arch} (s : RawBootInfo arch) :
    Nat × RawBootInfo arch :=
  (s.cpu_online, s)

/-- Modelled from the spec: `increment_cpu_online` is provided by the
`kernel` feature module, which is not under src/.  The spec describes it
as atomically incrementing the `cpu_online` counter by one per call
(release ordering).  Wrapping follows `AtomicU32` arithmetic. -/
def RawBootInfo.increment_cpu_online {arch : Arch} (s : RawBootInfo arch) :
    RawBootInfo arch :=
  { s with cpu_online := (s.cpu_online + 1) % u32Mod }

/-- A concrete record used to instantiate hypotheses of the theorems:
the spec's end-to-end scenario with `base = 0x100000`,
`limit = 0x10000000`, `image_size = 0x4000`, `possible_cpus = 4`,
`cpu_online = 0`, remaining fields zero. -/
def exampleRecord : RawBootInfo Arch.x86_64 where
  magic_number := 0
  version := 0
  base := 0x100000
  ram_start := fun h => Arch.noConfusion h
  limit := 0x10000000
  image_size := 0x4000
  tls_start := 0
  tls_filesz := 0
  tls_memsz := 0
  tls_align := 0
  current_stack_address := 0
  current_percore_address := 0
  host_logical_addr := 0
  boot_gtod := 0
  mb_info := fun _ => 0
  cmdline := 0
  cmdsize := 0
  cpu_freq := 0
  boot_processor := 0
  cpu_online := 0
  possible_cpus := 4
  current_boot_id := 0
  uartport := 0
  single_kernel := 0
  uhyve := 0
  hcip := (0, 0, 0, 0)
  hcgateway := (0, 0, 0, 0)
  hcmask := (0, 0, 0, 0)

/-- The `cpu_online` field of an `n`-fold iterate of `increment_cpu_online`. -/
theorem iterate_increment_cpu_online {arch : Arch} :
    ∀ (n : Nat) (s : RawBootInfo arch), s.cpu_online < u32Mod →
      (RawBootInfo.increment_cpu_online^[n] s).cpu_online = (s.cpu_online + n) % u32Mod := by
  intro n
  induction n with
  | zero =>
    intro s hs
    simpa using (Nat.mod_eq_of_lt hs).symm
  | succ n ih =>
    intro s hs
    rw [Function.iterate_succ_apply]
    have hlt : (s.increment_cpu_online).cpu_online < u32Mod :=
      Nat.mod_lt _ (by decide)
    rw [ih (s.increment_cpu_online) hlt]
    show ((s.cpu_online + 1) % u32Mod + n) % u32Mod = _
    rw [Nat.mod_add_mod]
    congr 1
    omega

/-- Claim C1: `increment_cpu_online` increments the `cpu_online` counter by
one per call; starting from a record with `cpu_online = 0`, after `n`
cores each call it exactly once (any interleaving of these calls is some
order of the `n` increments, hence an `n`-fold iterate), `load_cpu_online`
returns `n`. -/
theorem increment_cpu_online_counts {arch : Arch} (s : RawBootInfo arch) (n : Nat)
    (h0 : s.cpu_online = 0) (hn : n < u32Mod) :
    ((RawBootInfo.increment_cpu_online^[n] s).load_cpu_online).1 = n := by
  have h := iterate_increment_cpu_online n s (by rw [h0]; decide)
  rw [h0] at h
  simp only [RawBootInfo.load_cpu_online, h, Nat.zero_add]
  exact Nat.mod_eq_of_lt hn

/-- Witness for claim C1: the spec scenario with `possible_cpus = 4` and
four cores each incrementing once ends with `load_cpu_online` returning 4. -/
theorem increment_cpu_online_counts_witness :
    exampleRecord.cpu_online = 0 ∧ 4 < u32Mod ∧
      ((RawBootInfo.increment_cpu_online^[4] exampleRecord).load_cpu_online).1 = 4 :=
  ⟨rfl, by decide, increment_cpu_online_counts exampleRecord 4 rfl (by decide)⟩

/-- Claim C2: for every record state, `load_cpu_online` returns exactly the
current value of the `cpu_online` field and leaves the record unchanged. -/
theorem load_cpu_online_reads_cpu_online {arch : Arch} (s : RawBootInfo arch) :
    s.load_cpu_online = (s.cpu_online, s) :=
  rfl

/-- Claim C3: for every `u64` value `v`, storing `v` via
`store_current_stack_address` and then reading the
`current_stack_address` field yields exactly `v`. -/
theorem store_current_stack_address_roundtrip {arch : Arch}
    (s : RawBootInfo arch) (v : Nat) (hv : v < u64Mod) :
    (s.store_current_stack_address v).current_stack_address = v := by
  simp only [RawBootInfo.store_current_stack_address]
  exact Nat.mod_eq_of_lt hv

/-- Witness for claim C3 at the concrete value `0xdeadbeef`. -/
theorem store_current_stack_address_roundtrip_witness :
    0xdeadbeef < u64Mod ∧
      (exampleRecord.store_current_stack_address 0xdeadbeef).current_stack_address =
        0xdeadbeef :=
  ⟨by decide, store_current_stack_address_roundtrip exampleRecord 0xdeadbeef (by decide)⟩

/-- Claim C8: `store_current_stack_address` mutates only the
`current_stack_address` field, leaving every other field of the record
(including `cpu_online` and all immutable and legacy fields) unchanged,
and `load_cpu_online` changes no field at all.  Both are pure
state-passing functions: in this embedding they neither allocate nor
block by construction. -/
theorem store_frame_load_pure {arch : Arch} (s : RawBootInfo arch) (v : Nat) :
    ((s.store_current_stack_address v).magic_number = s.magic_number ∧
     (s.store_current_stack_address v).version = s.version ∧
     (s.store_current_stack_address v).base = s.base ∧
     (s.store_current_stack_address v).ram_start = s.ram_start ∧
     (s.store_current_stack_address v).limit = s.limit ∧
     (s.store_current_stack_address v).image_size = s.image_size ∧
     (s.store_current_stack_address v).tls_start = s.tls_start ∧
     (s.store_current_stack_address v).tls_filesz = s.tls_filesz ∧
     (s.store_current_stack_address v).tls_memsz = s.tls_memsz ∧
     (s.store_current_stack_address v).tls_align = s.tls_align ∧
     (s.store_current_stack_address v).current_percore_address = s.current_percore_address ∧
     (s.store_current_stack_address v).host_logical_addr = s.host_logical_addr ∧
     (s.store_current_stack_address v).boot_gtod = s.boot_gtod ∧
     (s.store_current_stack_address v).mb_info = s.mb_info ∧
     (s.store_current_stack_address v).cmdline = s.cmdline ∧
     (s.store_current_stack_address v).cmdsize = s.cmdsize ∧
     (s.store_current_stack_address v).cpu_freq = s.cpu_freq ∧
     (s.store_current_stack_address v).boot_processor = s.boot_processor ∧
     (s.store_current_stack_address v).cpu_online = s.cpu_online ∧
     (s.store_current_stack_address v).possible_cpus = s.possible_cpus ∧
     (s.store_current_stack_address v).current_boot_id = s.current_boot_id ∧
     (s.store_current_stack_address v).uartport = s.uartport ∧
     (s.store_current_stack_address v).single_kernel = s.single_kernel ∧
     (s.store_current_stack_address v).uhyve = s.uhyve ∧
     (s.store_current_stack_address v).hcip = s.hcip ∧
     (s.store_current_stack_address v).hcgateway = s.hcgateway ∧
     (s.store_current_stack_address v).hcmask = s.hcmask) ∧
    (s.load_cpu_online).2 = s :=
  ⟨⟨rfl, rfl, rfl, rfl, rfl, rfl, rfl, rfl, rfl, rfl, rfl, rfl, rfl, rfl,
    rfl, rfl, rfl, rfl, rfl, rfl, rfl, rfl, rfl, rfl, rfl, rfl, rfl⟩, rfl⟩

/-- Syntactic model of the Rust types occurring in the `Entry` signature:
the boot info record, a reference with the `'static` lifetime, and the
never type `!`. -/
inductive RustTy where
  | rawBootInfoRecord
  | staticRef (t : RustTy)
  | never
deriving DecidableEq

/-- A function signature: argument types and return type. -/
structure FnSig where
  args : List RustTy
  ret : RustTy

/-- `pub type Entry = unsafe extern "C" fn(raw_boot_info: &'static RawBootInfo) -> !`
(src/src/lib.rs line 20). -/
def Entry : FnSig where
  args := [RustTy.staticRef RustTy.rawBootInfoRecord]
  ret := RustTy.never

/-- Denotation of the syntactic Rust types: a `'static` reference to the
record denotes the record state itself (valid for the whole execution),
and the never type denotes the empty type, so a total function into it
cannot return. -/
def TyDen (arch : Arch) : RustTy → Type
  | RustTy.rawBootInfoRecord => RawBootInfo arch
  | RustTy.staticRef t => TyDen arch t
  | RustTy.never => Empty

/-- Denotation of an argument list as an iterated product. -/
def ArgsDen (arch : Arch) : List RustTy → Type
  | [] => PUnit
  | t :: ts => TyDen arch t × ArgsDen arch ts

/-- Denotation of a function signature. -/
def FnDen (arch : Arch) (sig : FnSig) : Type :=
  ArgsDen arch sig.args → TyDen arch sig.ret

/-- Claim C7: the `Entry` type accepts exactly one argument, a `'static`
reference to the boot info record, and is divergent: an invocation
conforming to `Entry` never returns to its caller (its denotation never
produces a return value). -/
theorem entry_single_arg_divergent :
    Entry.args.length = 1 ∧
    Entry.args = [RustTy.staticRef RustTy.rawBootInfoRecord] ∧
    Entry.ret = RustTy.never ∧
    ∀ (arch : Arch) (f : FnDen arch Entry) (b : RawBootInfo arch), False :=
  ⟨rfl, rfl, rfl, fun _ f b => by
    have e : Empty := f ⟨b, PUnit.unit⟩
    exact e.elim⟩

/-- The field names of `RawBootInfo`, for the layout model. -/
inductive FName where
  | magic_number | version | base | ram_start | limit | image_size
  | tls_start | tls_filesz | tls_memsz | tls_align
  | current_stack_address | current_percore_address | host_logical_addr
  | boot_gtod | mb_info | cmdline | cmdsize | cpu_freq | boot_processor
  | cpu_online | possible_cpus | current_boot_id | uartport
  | single_kernel | uhyve | hcip | hcgateway | hcmask
deriving DecidableEq

/-- Field order of the `repr(C)` struct `RawBootInfo` per architecture,
transcribed from src/src/lib.rs lines 96-189 with its
`cfg(target_arch)` attributes: `ram_start` and the early `tls_align`
exist only on aarch64, `mb_info` and the trailing `tls_align` only on
x86_64. -/
def rawLayout : Arch → List FName
  | Arch.x86_64 =>
    [FName.magic_number, FName.version, FName.base, FName.limit,
     FName.image_size, FName.tls_start, FName.tls_filesz, FName.tls_memsz,
     FName.current_stack_address, FName.current_percore_address,
     FName.host_logical_addr, FName.boot_gtod, FName.mb_info,
     FName.cmdline, FName.cmdsize, FName.cpu_freq, FName.boot_processor,
     FName.cpu_online, FName.possible_cpus, FName.current_boot_id,
     FName.uartport, FName.single_kernel, FName.uhyve, FName.hcip,
     FName.hcgateway, FName.hcmask, FName.tls_align]
  | Arch.aarch64 =>
    [FName.magic_number, FName.version, FName.base, FName.ram_start,
     FName.limit, FName.image_size, FName.tls_start, FName.tls_filesz,
     FName.tls_memsz, FName.tls_align, FName.current_stack_address,
     FName.current_percore_address, FName.host_logical_addr,
     FName.boot_gtod, FName.cmdline, FName.cmdsize, FName.cpu_freq,
     FName.boot_processor, FName.cpu_online, FName.possible_cpus,
     FName.current_boot_id, FName.uartport, FName.single_kernel,
     FName.uhyve, FName.hcip, FName.hcgateway, FName.hcmask]

/-- Claim C6: each architecture build contains exactly one conditional
field variant and never both: on aarch64 the record has `ram_start`,
`tls_align` immediately after `tls_memsz`, no `mb_info`, and a 32-bit
serial port base; on x86_64 it has no `ram_start`, an `mb_info` field,
`tls_align` as the last field, and a 16-bit serial port base. -/
theorem arch_conditional_layout :
    (FName.ram_start ∈ rawLayout Arch.aarch64 ∧
     (rawLayout Arch.aarch64).indexOf FName.tls_align =
       (rawLayout Arch.aarch64).indexOf FName.tls_memsz + 1 ∧
     FName.mb_info ∉ rawLayout Arch.aarch64 ∧
     serialPortBaseBits Arch.aarch64 = 32) ∧
    (FName.ram_start ∉ rawLayout Arch.x86_64 ∧
     FName.mb_info ∈ rawLayout Arch.x86_64 ∧
     (rawLayout Arch.x86_64).getLast? = some FName.tls_align ∧
     serialPortBaseBits Arch.x86_64 = 16) ∧
    ∀ a : Arch, ¬(FName.ram_start ∈ rawLayout a ∧ FName.mb_info ∈ rawLayout a) := by
  decide

/-- `pub const NT_HERMIT_ENTRY_VERSION: u32 = 0x5a00` (src/src/lib.rs
line 28): the note type for specifying the hermit entry version; the
note name for it is `HERMIT`. -/
def NT_HERMIT_ENTRY_VERSION : Nat := 0x5a00

/-- `pub const HERMIT_ENTRY_VERSION: u8 = 1` (src/src/lib.rs line 30). -/
def HERMIT_ENTRY_VERSION : Nat := 1

/-- ASCII bytes of the note name `HERMIT`, NUL-terminated as stored in a
note's name field. -/
def noteName : List Nat := [0x48, 0x45, 0x52, 0x4d, 0x49, 0x54, 0x00]

/-- Round `n` up to the next multiple of 4 (note-section alignment). -/
def pad4 (n : Nat) : Nat := 4 * ((n + 3) / 4)

/-- Zero-pad a byte list to 4-byte alignment. -/
def padTo4 (l : List Nat) : List Nat :=
  l ++ List.replicate (pad4 l.length - l.length) 0

/-- Little-endian 4-byte encoding of a 32-bit value. -/
def u32le (n : Nat) : List Nat :=
  [n % 256, n / 256 % 256, n / 65536 % 256, n / 16777216 % 256]

/-- Little-endian decoding of 4 bytes. -/
def parseU32le (b0 b1 b2 b3 : Nat) : Nat :=
  b0 + 256 * b1 + 65536 * b2 + 16777216 * b3

/-- Modelled from the spec: the note-emitting side lives in the `kernel`
feature module, which is not under src/.  Per the spec, `encode` produces
the exact byte sequence of the Entry Version Note: name size, descriptor
size, the well-known type tag `NT_HERMIT_ENTRY_VERSION`, the `HERMIT`
name, and the one-byte version descriptor, name and descriptor padded to
the 4-byte alignment the target binary format requires (the same on both
supported architectures). -/
def encodeEntryVersionNote (_arch : Arch) (v : Nat) : List Nat :=
  u32le noteName.length ++ u32le 1 ++ u32le NT_HERMIT_ENTRY_VERSION ++
    padTo4 noteName ++ padTo4 [v]

/-- Modelled from the spec: one scanning step of the decoder over an
image's note bytes.  Each note starts with name size, descriptor size and
type; a note matching the well-known `HERMIT` name and
`NT_HERMIT_ENTRY_VERSION` type with a one-byte descriptor yields the
version, otherwise scanning continues past the note.  The fuel argument
bounds the number of notes by the byte length of the image. -/
def decodeStep : Nat → List Nat → Option Nat
  | 0, _ => none
  | fuel + 1, n0 :: n1 :: n2 :: n3 :: d0 :: d1 :: d2 :: d3 :: t0 :: t1 :: t2 :: t3 :: rest =>
    let namesz := parseU32le n0 n1 n2 n3
    let descsz := parseU32le d0 d1 d2 d3
    let ty := parseU32le t0 t1 t2 t3
    if rest.take namesz = noteName ∧ ty = NT_HERMIT_ENTRY_VERSION ∧ descsz = 1 then
      ((rest.drop (pad4 namesz)).take descsz).head?
    else
      decodeStep fuel (rest.drop (pad4 namesz + pad4 descsz))
  | _ + 1, _ => none

/-- Modelled from the spec: `decode(image) -> Option<u8>` scans an
image's metadata notes and returns the version if the well-known
name/type pair is found, or nothing if absent. -/
def decodeEntryVersion (image : List Nat) : Option Nat :=
  decodeStep image.length image

/-- Claim C5: for every version byte `v` and every architecture
configuration, encoding an Entry Version Note with version `v` and then
decoding the resulting image metadata returns `some v`. -/
theorem entry_version_note_roundtrip (arch : Arch) (v : Nat) (hv : v < 256) :
    decodeEntryVersion (encodeEntryVersionNote arch v) = some v :=
  rfl

/-- Witness for claim C5 at the current protocol version byte 1. -/
theorem entry_version_note_roundtrip_witness :
    1 < 256 ∧
      decodeEntryVersion (encodeEntryVersionNote Arch.aarch64 1) = some 1 :=
  ⟨by decide, entry_version_note_roundtrip Arch.aarch64 1 (by decide)⟩

/-- Claim C10: the concrete Entry Version Note constants: the note type
identifier `NT_HERMIT_ENTRY_VERSION` equals the 32-bit value `0x5a00`
(under note name `HERMIT`, ASCII `48 45 52 4d 49 54`), and the current
protocol version constant `HERMIT_ENTRY_VERSION` is the single byte 1;
the note encoded for the current version decodes back to version 1. -/
theorem entry_version_constants :
    NT_HERMIT_ENTRY_VERSION = 0x5a00 ∧ NT_HERMIT_ENTRY_VERSION < u32Mod ∧
    HERMIT_ENTRY_VERSION = 1 ∧ HERMIT_ENTRY_VERSION < 256 ∧
    noteName = [0x48, 0x45, 0x52, 0x4d, 0x49, 0x54, 0x00] ∧
    decodeEntryVersion (encodeEntryVersionNote Arch.x86_64 HERMIT_ENTRY_VERSION) =
      some 1 := by
  exact ⟨rfl, by decide, rfl, by decide, rfl, rfl⟩

/-- `pub struct TlsInfo` (src/src/lib.rs lines 88-94). -/
structure TlsInfo where
  start : Nat
  filesz : Nat
  memsz : Nat
  align : Nat
deriving DecidableEq

/-- `pub struct BootInfo` (src/src/lib.rs lines 44-86): the semantic boot
info view.  `ram_start` exists only on aarch64 and `mb_info` only on
x86_64, embedded as on `RawBootInfo`. -/
structure BootInfo (arch : Arch) where
  ram_start : arch = Arch.aarch64 → Nat
  limit : Nat
  base : Nat
  image_size : Nat
  tls_info : TlsInfo
  uartport : Nat
  uhyve : Nat
  boot_gtod : Nat
  cpu_freq : Nat
  possible_cpus : Nat
  cmdline : Nat
  cmdsize : Nat
  mb_info : arch = Arch.x86_64 → Nat

/-- Modelled from the spec: the conversion from the raw record to the
semantic view is provided by the `kernel` feature module, which is not
under src/.  Per the spec it is a pure, total conversion that copies out
the immutable fields into typed form (a structured TLS descriptor) and
resolves the architecture-conditional fields. -/
def BootInfo.from_raw {arch : Arch} (s : RawBootInfo arch) : BootInfo arch where
  ram_start := s.ram_start
  limit := s.limit
  base := s.base
  image_size := s.image_size
  tls_info :=
    { start := s.tls_start, filesz := s.tls_filesz, memsz := s.tls_memsz,
      align := s.tls_align }
  uartport := s.uartport
  uhyve := s.uhyve
  boot_gtod := s.boot_gtod
  cpu_freq := s.cpu_freq
  possible_cpus := s.possible_cpus
  cmdline := s.cmdline
  cmdsize := s.cmdsize
  mb_info := s.mb_info

/-- Claim C9: `from_raw` is a pure, total conversion — defined for every
record, with no error or panic branch — producing the typed view of the
immutable fields, with the architecture-conditional fields resolved from
the record. -/
theorem from_raw_total_copies {arch : Arch} (s : RawBootInfo arch) :
    (BootInfo.from_raw s).ram_start = s.ram_start ∧
    (BootInfo.from_raw s).limit = s.limit ∧
    (BootInfo.from_raw s).base = s.base ∧
    (BootInfo.from_raw s).image_size = s.image_size ∧
    (BootInfo.from_raw s).tls_info =
      (⟨s.tls_start, s.tls_filesz, s.tls_memsz, s.tls_align⟩ : TlsInfo) ∧
    (BootInfo.from_raw s).uartport = s.uartport ∧
    (BootInfo.from_raw s).uhyve = s.uhyve ∧
    (BootInfo.from_raw s).boot_gtod = s.boot_gtod ∧
    (BootInfo.from_raw s).cpu_freq = s.cpu_freq ∧
    (BootInfo.from_raw s).possible_cpus = s.possible_cpus ∧
    (BootInfo.from_raw s).cmdline = s.cmdline ∧
    (BootInfo.from_raw s).cmdsize = s.cmdsize ∧
    (BootInfo.from_raw s).mb_info = s.mb_info :=
  ⟨rfl, rfl, rfl, rfl, rfl, rfl, rfl, rfl, rfl, rfl, rfl, rfl, rfl⟩

/-- An operation a core performs on the shared record during bring-up:
publishing a stack address, a core's single `increment_cpu_online` call,
or a read of the online counter. -/
inductive BootOp where
  | storeStack (v : Nat)
  | increment (core : Nat)
  | readOnline
deriving DecidableEq

/-- Apply one operation to the record state. -/
def applyOp {arch : Arch} (s : RawBootInfo arch) : BootOp → RawBootInfo arch
  | BootOp.storeStack v => s.store_current_stack_address v
  | BootOp.increment _ => s.increment_cpu_online
  | BootOp.readOnline => (s.load_cpu_online).2

/-- Run a sequence of operations (one interleaving of the cores' calls)
from a state. -/
def runOps {arch : Arch} (s : RawBootInfo arch) (l : List BootOp) : RawBootInfo arch :=
  l.foldl applyOp s

/-- The cores performing increments in a trace, in order. -/
def incCores : List BootOp → List Nat :=
  List.filterMap fun op =>
    match op with
    | BootOp.increment c => some c
    | _ => none

/-- No operation changes `possible_cpus`. -/
theorem runOps_possible_cpus {arch : Arch} :
    ∀ (l : List BootOp) (s : RawBootInfo arch),
      (runOps s l).possible_cpus = s.possible_cpus := by
  intro l
  induction l with
  | nil => intro s; rfl
  | cons op l ih =>
    intro s
    show (runOps (applyOp s op) l).possible_cpus = s.possible_cpus
    rw [ih (applyOp s op)]
    cases op <;> rfl

/-- As long as the increments performed cannot wrap the `u32` counter,
`cpu_online` after a trace is its initial value plus the number of
increments in the trace. -/
theorem runOps_cpu_online {arch : Arch} :
    ∀ (l : List BootOp) (s : RawBootInfo arch),
      s.cpu_online + (incCores l).length < u32Mod →
      (runOps s l).cpu_online = s.cpu_online + (incCores l).length := by
  intro l
  induction l with
  | nil => intro s _; rfl
  | cons op l ih =>
    intro s h
    cases op with
    | storeStack v =>
      have hc : incCores (BootOp.storeStack v :: l) = incCores l := rfl
      rw [hc] at h ⊢
      show (runOps (s.store_current_stack_address v) l).cpu_online = _
      exact ih (s.store_current_stack_address v) h
    | readOnline =>
      have hc : incCores (BootOp.readOnline :: l) = incCores l := rfl
      rw [hc] at h ⊢
      show (runOps (s.load_cpu_online).2 l).cpu_online = _
      exact ih (s.load_cpu_online).2 h
    | increment c =>
      have hc : incCores (BootOp.increment c :: l) = c :: incCores l := rfl
      rw [hc] at h ⊢
      show (runOps s.increment_cpu_online l).cpu_online = _
      have hone : (s.increment_cpu_online).cpu_online = s.cpu_online + 1 := by
        show (s.cpu_online + 1) % u32Mod = s.cpu_online + 1
        refine Nat.mod_eq_of_lt ?_
        simp only [List.length_cons] at h
        omega
      have hrec := ih s.increment_cpu_online (by rw [hone]; simp only [List.length_cons] at h; omega)
      rw [hrec, hone]
      simp only [List.length_cons]
      omega

/-- A prefix of a trace has at most as many increments as the trace. -/
theorem incCores_take_length_le (l : List BootOp) (n : Nat) :
    (incCores (l.take n)).length ≤ (incCores l).length :=
  List.Sublist.length_le (List.Sublist.filterMap _ (List.take_sublist n l))

/-- Increment counts of prefixes are monotone in the prefix length. -/
theorem incCores_take_length_mono (l : List BootOp) (n : Nat) :
    (incCores (l.take n)).length ≤ (incCores (l.take (n + 1))).length := by
  have h : (l.take (n + 1)).take n = l.take n := by
    rw [List.take_take]
    congr 1
    omega
  calc (incCores (l.take n)).length
      = (incCores ((l.take (n + 1)).take n)).length := by rw [h]
    _ ≤ (incCores (l.take (n + 1))).length := incCores_take_length_le (l.take (n + 1)) n

/-- A trace of core-startup increments — pairwise-distinct cores, each
below the core count `P` — contains at most `P` increments. -/
theorem incCores_length_le_of_nodup (l : List BootOp) (P : Nat)
    (hnd : (incCores l).Nodup) (hb : ∀ c ∈ incCores l, c < P) :
    (incCores l).length ≤ P := by
  classical
  have h1 : (incCores l).toFinset.card = (incCores l).length :=
    List.toFinset_card_of_nodup hnd
  have h2 : (incCores l).toFinset ⊆ Finset.range P := by
    intro c hc
    rw [Finset.mem_range]
    exact hb c (List.mem_toFinset.mp hc)
  have h3 := Finset.card_le_card h2
  rw [h1, Finset.card_range] at h3
  exact h3

/-- Claim C4: starting from a validly constructed record
(`cpu_online = 0`, `possible_cpus` a `u32`), along any interleaving of
the record's operations in which each core (of the at most
`possible_cpus` distinct cores) performs its startup increment at most
once, the `cpu_online` value never decreases from one observation to the
next, and `load_cpu_online` never returns a value greater than
`possible_cpus`. -/
theorem cpu_online_monotone_bounded {arch : Arch} (s0 : RawBootInfo arch)
    (ops : List BootOp)
    (h0 : s0.cpu_online = 0)
    (hP : s0.possible_cpus < u32Mod)
    (hnd : (incCores ops).Nodup)
    (hb : ∀ c ∈ incCores ops, c < s0.possible_cpus) :
    (∀ n, (runOps s0 (ops.take n)).cpu_online ≤
      (runOps s0 (ops.take (n + 1))).cpu_online) ∧
    (∀ n, ((runOps s0 (ops.take n)).load_cpu_online).1 ≤ s0.possible_cpus) := by
  have hle : ∀ n, (incCores (ops.take n)).length ≤ s0.possible_cpus := fun n =>
    le_trans (incCores_take_length_le ops n)
      (incCores_length_le_of_nodup ops s0.possible_cpus hnd hb)
  have hval : ∀ n, (runOps s0 (ops.take n)).cpu_online = (incCores (ops.take n)).length := by
    intro n
    have hlt : s0.cpu_online + (incCores (ops.take n)).length < u32Mod := by
      have := hle n
      omega
    rw [runOps_cpu_online (ops.take n) s0 hlt, h0, Nat.zero_add]
  constructor
  · intro n
    rw [hval n, hval (n + 1)]
    exact incCores_take_length_mono ops n
  · intro n
    show (runOps s0 (ops.take n)).cpu_online ≤ s0.possible_cpus
    rw [hval n]
    exact hle n

/-- The spec's bring-up scenario as a trace: four cores increment once
each, interleaved with a stack-address publication and a counter read. -/
def bringupOps : List BootOp :=
  [BootOp.increment 0, BootOp.storeStack 0x5000, BootOp.increment 1,
   BootOp.readOnline, BootOp.increment 2, BootOp.increment 3]

/-- Witness for claim C4 on the concrete scenario record and trace. -/
theorem cpu_online_monotone_bounded_witness :
    exampleRecord.cpu_online = 0 ∧
    exampleRecord.possible_cpus < u32Mod ∧
    (incCores bringupOps).Nodup ∧
    (∀ c ∈ incCores bringupOps, c < exampleRecord.possible_cpus) ∧
    ((∀ n, (runOps exampleRecord (bringupOps.take n)).cpu_online ≤
      (runOps exampleRecord (bringupOps.take (n + 1))).cpu_online) ∧
     (∀ n, ((runOps exampleRecord (bringupOps.take n)).load_cpu_online).1 ≤
      exampleRecord.possible_cpus)) :=
  ⟨rfl, by decide, by decide, by decide,
    cpu_online_monotone_bounded exampleRecord bringupOps rfl (by decide)
      (by decide) (by decide)⟩

end HermitEntry
